import Mathlib

/-!
Shallow embedding of the cism finite-state-machine library (Go package
`cism`, files `state.go` and the machine source) and proofs about it.

Go maps `map[K]V` are modelled as association lists `List (K × V)` with
`List.lookup`; a Go map key bound to a nil pointer is modelled by a key
present with value `none`.  The machine methods mutate a `*Machine`
receiver and return an `error`; they are modelled as functions returning
the (possibly unchanged) machine together with an `Option MachineError`.
The side-effecting lifecycle hooks `OnFail` and `OnSuccess` are modelled
by their presence (a `Bool` field) and an explicit log of the calls the
machine makes to them; the pure `Guard` hook is kept as an optional
function.
-/

namespace Cism

/-- Go type `State` (state.go): an opaque comparable identifier. -/
abbrev State := Int

/-- Go type `Event` (state.go): an opaque comparable identifier. -/
abbrev Event := Int

/-- Go struct `Transition` (state.go).  `OnFail` and `OnSuccess` record
whether the corresponding callback is non-nil; their invocations are
logged by `Machine.transition`. -/
structure Transition where
  Guard : Option (State → Event → Bool)
  IsFinal : Bool
  OnFail : Bool
  OnSuccess : Bool
  To : State

/-- The inner Go map `map[Event]*Transition`: a key bound to a nil
pointer is a key present with value `none`. -/
abbrev EventMap := List (Event × Option Transition)

/-- Go type `StateTransitionTable` = `map[State]map[Event]*Transition`
(state.go).  A nil inner map behaves exactly like an empty one under
lookup, so it is modelled as `[]`. -/
abbrev StateTransitionTable := List (State × EventMap)

/-- Go method `StateTransitionTable.GetTransition` (state.go): returns
nil if the state key is absent, else the double lookup `stt[s][e]`,
which is nil both when the event key is absent and when it is bound to
a nil pointer. -/
def StateTransitionTable.GetTransition (stt : StateTransitionTable) (s : State) (e : Event) :
    Option Transition :=
  match stt.lookup s with
  | none => none
  | some em =>
    match em.lookup e with
    | none => none
    | some t => t

/-- Go method `StateTransitionTable.GetEventsForState` (state.go):
nil if the state key is absent, else every event key of the inner map
(whether or not its value is a nil pointer). -/
def StateTransitionTable.GetEventsForState (stt : StateTransitionTable) (s : State) :
    List Event :=
  match stt.lookup s with
  | none => []
  | some em => em.map Prod.fst

/-- Go method `StateTransitionTable.GetStatesForEvent` (state.go):
nil if the table is empty, else every state whose inner map has the
given event among its keys. -/
def StateTransitionTable.GetStatesForEvent (stt : StateTransitionTable) (e : Event) :
    List State :=
  if stt.isEmpty then []
  else stt.foldr (fun p acc => p.2.foldr (fun q acc2 => if q.1 == e then p.1 :: acc2 else acc2) acc) []

/-- Go struct `HistoryRecord`.  Field names are lowercased so they do
not clash with the `State` and `Event` type names. -/
structure HistoryRecord where
  state : State
  event : Event
deriving DecidableEq

/-- The typed errors of the package (one constructor per `Err...`
struct), with the data fields each Go error struct carries. -/
inductive MachineError where
  | missingStates
  | stateNotDefined (s : State)
  | machineStopped (finalEvent : Option Event)
  | machineStarted
  | missingTransition (s : State) (e : Event)
  | machineNotStarted
  | machineNotStopped
deriving DecidableEq

/-- One logged invocation of a lifecycle callback, with the arguments
the Go code passes to it. -/
inductive CBCall where
  | onSuccessCall (s : State) (e : Event)
  | onFailCall (s : State) (e : Event)
deriving DecidableEq

/-- Go struct `Machine`.  Default values are the Go zero values, so
`{ States := stt }` is a freshly constructed Go machine bound to a
table. -/
structure Machine where
  States : StateTransitionTable
  curr : State := 0
  done : Bool := false
  endevt : Option Event := none
  hist : List HistoryRecord := []
  initial : State := 0
  started : Bool := false

/-- A freshly constructed Go `&cism.Machine{States: stt}`: every field
other than the table holds its zero value. -/
def mkMachine (stt : StateTransitionTable) : Machine :=
  { States := stt }

/-- The guard condition of `Machine.transition`:
`tran.Guard == nil || tran.Guard(currstate, e)`. -/
def Transition.guardPasses (tran : Transition) (s : State) (e : Event) : Bool :=
  match tran.Guard with
  | none => true
  | some g => g s e

/-- Go method `Machine.Start`: the four precondition checks in source
order, then the successful field updates.  `Start` makes no callback
invocations, so its result carries no call log. -/
def Machine.Start (m : Machine) (s : State) : Option MachineError × Machine :=
  if m.States.isEmpty then (some .missingStates, m)
  else if (m.States.lookup s).isNone then (some (.stateNotDefined s), m)
  else if m.done then (some (.machineStopped m.endevt), m)
  else if m.started then (some .machineStarted, m)
  else (none, { m with curr := s, done := false, initial := s, started := true })

/-- Go unexported method `Machine.stop`: if the history log is
non-empty, record the event of its last record as the terminal event;
in any case set `done`. -/
def Machine.stop (m : Machine) : Machine :=
  match m.hist.getLast? with
  | some r => { m with endevt := some r.event, done := true }
  | none => { m with done := true }

/-- Go method `Machine.Stop`: delegates to the unexported `stop`. -/
def Machine.Stop (m : Machine) : Machine :=
  m.stop

/-- Go unexported method `Machine.transition`: evaluate the guard; on
pass, append `(currstate, e)` to the history, move to `tran.To`, log an
`OnSuccess` call if that hook is present, and stop if the transition is
final; on fail, log an `OnFail` call if that hook is present.  Returns
the updated machine and the callback-call log. -/
def Machine.transition (m : Machine) (tran : Transition) (e : Event) :
    Machine × List CBCall :=
  let currstate := m.curr
  if tran.guardPasses currstate e then
    let m1 := { m with hist := m.hist ++ [{ state := currstate, event := e }], curr := tran.To }
    let calls := if tran.OnSuccess then [CBCall.onSuccessCall currstate e] else []
    if tran.IsFinal then (m1.stop, calls) else (m1, calls)
  else
    (m, if tran.OnFail then [CBCall.onFailCall currstate e] else [])

/-- Go method `Machine.Send`: the two precondition checks, then the
table lookup; a found transition is applied (and `Send` returns nil),
a missing one yields `ErrMissingTransition`. -/
def Machine.Send (m : Machine) (e : Event) :
    Option MachineError × Machine × List CBCall :=
  if !m.started then (some .machineNotStarted, m, [])
  else if m.done then (some (.machineStopped m.endevt), m, [])
  else
    match m.States.GetTransition m.curr e with
    | some tran =>
      let r := m.transition tran e
      (none, r.1, r.2)
    | none => (some (.missingTransition m.curr e), m, [])

/-- Go method `Machine.Reset`: fails unless stopped, else clears the
done flag, terminal event and history, restores the initial state and
clears the started flag. -/
def Machine.Reset (m : Machine) : Option MachineError × Machine :=
  if !m.done then (some .machineNotStopped, m)
  else (none, { m with done := false, endevt := none, hist := [], curr := m.initial, started := false })

/-- Go method `Machine.Current`. -/
def Machine.Current (m : Machine) : State :=
  m.curr

/-- Go method `Machine.History` (the Go copy of the slice is identity
under value semantics). -/
def Machine.History (m : Machine) : List HistoryRecord :=
  m.hist

/-- Lifecycle state `unstarted` of the spec: never started (or reset)
and not stopped. -/
def Machine.isUnstarted (m : Machine) : Bool :=
  !m.started && !m.done

/-- Lifecycle state `running` of the spec: started and not stopped. -/
def Machine.isRunning (m : Machine) : Bool :=
  m.started && !m.done

/-- Lifecycle state `stopped` of the spec: the done flag is set. -/
def Machine.isStopped (m : Machine) : Bool :=
  m.done

/-! Concrete tables and machines used by the witness theorems. -/

/-- A guard-passing, non-final transition to state 2 with an
`OnSuccess` hook. -/
def tranA : Transition :=
  { Guard := some (fun _ _ => true), IsFinal := false, OnFail := false,
    OnSuccess := true, To := 2 }

/-- A guard-failing transition to state 2 with an `OnFail` hook. -/
def tranF : Transition :=
  { Guard := some (fun _ _ => false), IsFinal := false, OnFail := true,
    OnSuccess := false, To := 2 }

/-- A final transition to state 2 with no guard. -/
def tranFin : Transition :=
  { Guard := none, IsFinal := true, OnFail := false,
    OnSuccess := true, To := 2 }

/-- Table binding event 7 in state 1 to `tranA`. -/
def sttA : StateTransitionTable := [(1, [(7, some tranA)])]

/-- Table binding event 7 in state 1 to `tranF`. -/
def sttF : StateTransitionTable := [(1, [(7, some tranF)])]

/-- Table binding event 7 in state 1 to `tranFin`. -/
def sttFin : StateTransitionTable := [(1, [(7, some tranFin)])]

/-- Table whose inner map for state 1 binds event 7 to a nil
transition pointer. -/
def sttNil : StateTransitionTable := [(1, [(7, none)])]

/-- A machine bound to `sttA`, started at state 1. -/
def mA : Machine :=
  { States := sttA, curr := 1, done := false, endevt := none, hist := [],
    initial := 1, started := true }

/-- A machine bound to `sttF`, started at state 1. -/
def mF : Machine :=
  { States := sttF, curr := 1, done := false, endevt := none, hist := [],
    initial := 1, started := true }

/-- A machine bound to `sttFin`, started at state 1. -/
def mFin : Machine :=
  { States := sttFin, curr := 1, done := false, endevt := none, hist := [],
    initial := 1, started := true }

/-- A machine bound to `sttNil`, started at state 1. -/
def mNil : Machine :=
  { States := sttNil, curr := 1, done := false, endevt := none, hist := [],
    initial := 1, started := true }

/-! Helper lemmas shared by the claim theorems. -/

/-- A successful association-list lookup means the key occurs among the
keys. -/
theorem mem_map_fst_of_lookup_isSome {β : Type} (a : Int) :
    ∀ l : List (Int × β), (l.lookup a).isSome = true → a ∈ l.map Prod.fst := by
  intro l
  induction l with
  | nil => intro h; simp [List.lookup] at h
  | cons p tl ih =>
    intro h
    obtain ⟨k, v⟩ := p
    by_cases hk : a = k
    · simp [hk]
    · have hbeq : (a == k) = false := by simp [hk]
      rw [List.lookup, hbeq] at h
      exact List.mem_cons_of_mem _ (ih h)

/-- A list with a successful lookup is non-empty. -/
theorem isEmpty_false_of_lookup_isSome {β : Type} (a : Int)
    (l : List (Int × β)) (h : (l.lookup a).isSome = true) :
    l.isEmpty = false := by
  cases l with
  | nil => simp [List.lookup] at h
  | cons p tl => rfl

/-- Applying a found transition with a passing guard: the shape of the
`Send` result, split off so each claim theorem can reuse it. -/
theorem send_apply (m : Machine) (e : Event) (tran : Transition)
    (hstart : m.started = true) (hdone : m.done = false)
    (htran : m.States.GetTransition m.curr e = some tran) :
    m.Send e = (none, (m.transition tran e).1, (m.transition tran e).2) := by
  simp [Machine.Send, hstart, hdone, htran]

/-- On a passing guard, `transition` appends one record, moves to
`tran.To`, logs one `OnSuccess` call when that hook is present, and
stops when the transition is final. -/
theorem transition_guard_pass (m : Machine) (e : Event) (tran : Transition)
    (hguard : tran.guardPasses m.curr e = true) :
    (m.transition tran e).1.hist = m.hist ++ [{ state := m.curr, event := e }] ∧
    (m.transition tran e).1.curr = tran.To ∧
    (m.transition tran e).1.started = m.started ∧
    (m.transition tran e).1.done = (m.done || tran.IsFinal) ∧
    (m.transition tran e).1.endevt = (if tran.IsFinal then some e else m.endevt) ∧
    (m.transition tran e).2 = (if tran.OnSuccess then [CBCall.onSuccessCall m.curr e] else []) := by
  cases hfin : tran.IsFinal with
  | false => simp [Machine.transition, hguard, hfin]
  | true =>
    simp [Machine.transition, hguard, hfin, Machine.stop, List.getLast?_append_cons]

/-- C1: for every started, non-stopped machine and event whose matched
transition has a passing (or absent) guard, `Send` returns no error,
appends exactly the record `(previousState, e)` to the history, sets
the current state to the transition's `To`, and logs exactly one
`OnSuccess` call with `(previousState, e)` when that hook is present. -/
theorem c1_send_guard_pass (m : Machine) (e : Event) (tran : Transition)
    (hstart : m.started = true) (hdone : m.done = false)
    (htran : m.States.GetTransition m.curr e = some tran)
    (hguard : tran.guardPasses m.curr e = true) :
    (m.Send e).1 = none ∧
    (m.Send e).2.1.hist = m.hist ++ [{ state := m.curr, event := e }] ∧
    (m.Send e).2.1.curr = tran.To ∧
    (m.Send e).2.2 = (if tran.OnSuccess then [CBCall.onSuccessCall m.curr e] else []) := by
  rw [send_apply m e tran hstart hdone htran]
  have h := transition_guard_pass m e tran hguard
  exact ⟨rfl, h.1, h.2.1, h.2.2.2.2.2⟩

/-- Witness for C1 at the concrete machine `mA` and event 7. -/
theorem c1_send_guard_pass_witness :
    (mA.Send 7).1 = none ∧
    (mA.Send 7).2.1.hist = mA.hist ++ [{ state := mA.curr, event := 7 }] ∧
    (mA.Send 7).2.1.curr = tranA.To ∧
    (mA.Send 7).2.2 = (if tranA.OnSuccess then [CBCall.onSuccessCall mA.curr 7] else []) :=
  c1_send_guard_pass mA 7 tranA rfl rfl rfl rfl

/-- C2 counterexample: from `mA` (current state 1), sending event 7
moves the machine into state 2, yet the appended history record stores
state 1 — the state transitioned out of — not the destination state 2
the claim says it stores. -/
theorem c2_counterexample :
    (mA.Send 7).2.1.curr = 2 ∧
    (mA.Send 7).2.1.hist = [{ state := 1, event := 7 }] ∧
    (mA.Send 7).2.1.hist ≠ [{ state := 2, event := 7 }] := by
  refine ⟨rfl, rfl, ?_⟩
  decide

/-- C2 (amended): for every applied (guard-passing) transition, the
history record appended by `Send` stores the state that was
transitioned out of — the previous current state — together with the
event that caused the change. -/
theorem c2_amended_history_stores_previous (m : Machine) (e : Event) (tran : Transition)
    (hstart : m.started = true) (hdone : m.done = false)
    (htran : m.States.GetTransition m.curr e = some tran)
    (hguard : tran.guardPasses m.curr e = true) :
    (m.Send e).2.1.hist = m.hist ++ [{ state := m.curr, event := e }] := by
  rw [send_apply m e tran hstart hdone htran]
  exact (transition_guard_pass m e tran hguard).1

/-- Witness for the amended C2 at the concrete machine `mA` and
event 7. -/
theorem c2_amended_history_stores_previous_witness :
    (mA.Send 7).2.1.hist = mA.hist ++ [{ state := mA.curr, event := 7 }] :=
  c2_amended_history_stores_previous mA 7 tranA rfl rfl rfl rfl

/-- C5: for every started, non-stopped machine and event whose matched
transition has a failing guard, `Send` returns no error, logs exactly
one `OnFail` call with `(current, e)` when that hook is present, and
leaves the machine — in particular its current state and history —
unchanged. -/
theorem c5_send_guard_fail (m : Machine) (e : Event) (tran : Transition)
    (hstart : m.started = true) (hdone : m.done = false)
    (htran : m.States.GetTransition m.curr e = some tran)
    (hguard : tran.guardPasses m.curr e = false) :
    (m.Send e).1 = none ∧
    (m.Send e).2.1 = m ∧
    (m.Send e).2.2 = (if tran.OnFail then [CBCall.onFailCall m.curr e] else []) := by
  rw [send_apply m e tran hstart hdone htran]
  simp [Machine.transition, hguard]

/-- Witness for C5 at the concrete machine `mF` and event 7. -/
theorem c5_send_guard_fail_witness :
    (mF.Send 7).1 = none ∧
    (mF.Send 7).2.1 = mF ∧
    (mF.Send 7).2.2 = (if tranF.OnFail then [CBCall.onFailCall mF.curr 7] else []) :=
  c5_send_guard_fail mF 7 tranF rfl rfl rfl rfl

/-- An option that is some is not none. -/
theorem isNone_eq_false_of_isSome {α : Type} {o : Option α} (h : o.isSome = true) :
    o.isNone = false := by
  cases o <;> simp_all

/-- C3: every failing operation — `Start`, `Send`, `Reset` — returns
the machine (every field: current state, initial state, started flag,
done flag, terminal event, history) exactly as it was before the
call, and a failing `Send` makes no callback invocations. -/
theorem c3_error_leaves_state (m : Machine) (s : State) (e : Event) :
    ((m.Start s).1.isSome = true → (m.Start s).2 = m) ∧
    ((m.Send e).1.isSome = true → (m.Send e).2.1 = m ∧ (m.Send e).2.2 = []) ∧
    ((m.Reset).1.isSome = true → (m.Reset).2 = m) := by
  refine ⟨?_, ?_, ?_⟩
  · unfold Machine.Start
    split_ifs <;> simp
  · intro h
    unfold Machine.Send at h ⊢
    split_ifs at h ⊢
    · exact ⟨rfl, rfl⟩
    · exact ⟨rfl, rfl⟩
    · cases htran : m.States.GetTransition m.curr e with
      | some tran => rw [htran] at h; simp at h
      | none => exact ⟨rfl, rfl⟩
  · unfold Machine.Reset
    split_ifs <;> simp

/-- Witness for C3: on the machine bound to the empty table, `Start`
fails and the machine is returned unchanged. -/
theorem c3_error_leaves_state_witness :
    ((mkMachine []).Start 1).1.isSome = true ∧ ((mkMachine []).Start 1).2 = mkMachine [] :=
  ⟨rfl, (c3_error_leaves_state (mkMachine []) 1 7).1 rfl⟩

/-- C4 counterexample: the freshly constructed machine bound to `sttA`
is in the `unstarted` lifecycle state, and a single explicit `Stop` —
with no successful start ever performed — puts it into the `stopped`
lifecycle state, where `Start` then fails with `MachineStopped`: the
stopped state is entered directly from `unstarted`, not only from
`running`. -/
theorem c4_counterexample :
    (mkMachine sttA).isUnstarted = true ∧
    ((mkMachine sttA).Stop).isStopped = true ∧
    (((mkMachine sttA).Stop).Start 1).1 = some (.machineStopped none) := by
  refine ⟨rfl, rfl, rfl⟩

/-- C4 (amended): `stop` sets the done flag unconditionally, so the
stopped lifecycle state is entered directly from `unstarted` by an
explicit `Stop`; no other operation does so from `unstarted`: `Send`
and `Reset` fail there leaving the machine unchanged, and `Start`
never yields a stopped machine (it either fails leaving the machine
unchanged or yields a running one). -/
theorem c4_amended_stop_from_unstarted (m : Machine) (s : State) (e : Event)
    (hu : m.isUnstarted = true) :
    (m.Stop).isStopped = true ∧
    (m.Send e).2.1 = m ∧
    (m.Reset).2 = m ∧
    (m.Start s).2.isStopped = false := by
  simp only [Machine.isUnstarted, Bool.and_eq_true, Bool.not_eq_true'] at hu
  refine ⟨?_, ?_, ?_, ?_⟩
  · unfold Machine.Stop Machine.stop Machine.isStopped
    split <;> rfl
  · simp [Machine.Send, hu.1]
  · simp [Machine.Reset, hu.2]
  · unfold Machine.Start Machine.isStopped
    split_ifs <;> simp [hu.2]

/-- Witness for the amended C4 at the fresh machine bound to
`sttF`. -/
theorem c4_amended_stop_from_unstarted_witness :
    ((mkMachine sttF).Stop).isStopped = true ∧
    ((mkMachine sttF).Send 7).2.1 = mkMachine sttF ∧
    ((mkMachine sttF).Reset).2 = mkMachine sttF ∧
    ((mkMachine sttF).Start 1).2.isStopped = false :=
  c4_amended_stop_from_unstarted (mkMachine sttF) 1 7 rfl

/-- C6: for every started, non-stopped machine and event whose matched
transition is final with a passing (or absent) guard, after `Send e`
the machine is stopped with terminal event `e`, and every further
`Send` fails with `MachineStopped` carrying `e`. -/
theorem c6_final_transition_stops (m : Machine) (e : Event) (tran : Transition)
    (hstart : m.started = true) (hdone : m.done = false)
    (htran : m.States.GetTransition m.curr e = some tran)
    (hguard : tran.guardPasses m.curr e = true)
    (hfin : tran.IsFinal = true) :
    (m.Send e).2.1.done = true ∧
    (m.Send e).2.1.endevt = some e ∧
    ∀ e2 : Event, ((m.Send e).2.1.Send e2).1 = some (.machineStopped (some e)) := by
  rw [send_apply m e tran hstart hdone htran]
  have h := transition_guard_pass m e tran hguard
  have hd : (m.transition tran e).1.done = true := by
    rw [h.2.2.2.1, hfin, Bool.or_true]
  have hev : (m.transition tran e).1.endevt = some e := by
    rw [h.2.2.2.2.1, hfin, if_pos rfl]
  have hst : (m.transition tran e).1.started = true := by
    rw [h.2.2.1, hstart]
  refine ⟨hd, hev, ?_⟩
  intro e2
  simp [Machine.Send, hst, hd, hev]

/-- Witness for C6 at the concrete machine `mFin` and event 7. -/
theorem c6_final_transition_stops_witness :
    (mFin.Send 7).2.1.done = true ∧
    (mFin.Send 7).2.1.endevt = some 7 ∧
    ∀ e2 : Event, ((mFin.Send 7).2.1.Send e2).1 = some (.machineStopped (some 7)) :=
  c6_final_transition_stops mFin 7 tranFin rfl rfl rfl rfl rfl

/-- C7: `Start s` fails with `MissingStates` exactly when the table is
empty; otherwise with `StateNotDefined s` when `s` is not a table key;
otherwise with `MachineStopped` (carrying the terminal event) when the
machine is done; otherwise with `MachineStarted` when it is already
started; otherwise it succeeds and records `s` as both the current and
the initial state and sets the started flag (the result type of
`Start` carries no callback log: `Start` invokes no callbacks). -/
theorem c7_start_cases (m : Machine) (s : State) :
    ((m.Start s).1 = some .missingStates ↔ m.States.isEmpty = true) ∧
    (m.States.isEmpty = false → (m.States.lookup s).isNone = true →
      (m.Start s).1 = some (.stateNotDefined s)) ∧
    (m.States.isEmpty = false → (m.States.lookup s).isSome = true → m.done = true →
      (m.Start s).1 = some (.machineStopped m.endevt)) ∧
    (m.States.isEmpty = false → (m.States.lookup s).isSome = true → m.done = false →
      m.started = true → (m.Start s).1 = some .machineStarted) ∧
    (m.States.isEmpty = false → (m.States.lookup s).isSome = true → m.done = false →
      m.started = false →
      (m.Start s).1 = none ∧
      (m.Start s).2 = { m with curr := s, initial := s, started := true, done := false }) := by
  refine ⟨?_, ?_, ?_, ?_, ?_⟩
  · unfold Machine.Start
    split_ifs with h1 h2 h3 h4 <;> simp [h1]
  · intro h1 h2
    simp [Machine.Start, h1, h2]
  · intro h1 h2 h3
    simp [Machine.Start, h1, isNone_eq_false_of_isSome h2, h3]
  · intro h1 h2 h3 h4
    simp [Machine.Start, h1, isNone_eq_false_of_isSome h2, h3, h4]
  · intro h1 h2 h3 h4
    simp [Machine.Start, h1, isNone_eq_false_of_isSome h2, h3, h4]

/-- Witness for C7: the success branch at the fresh machine bound to
`sttA`, started at its declared state 1. -/
theorem c7_start_cases_witness :
    ((mkMachine sttA).Start 1).1 = none ∧
    ((mkMachine sttA).Start 1).2 =
      { mkMachine sttA with curr := 1, initial := 1, started := true, done := false } :=
  (c7_start_cases (mkMachine sttA) 1).2.2.2.2 rfl rfl rfl rfl

/-- C8: for every state `s` that is a key of the bound table, after
`Start s`, `Stop`, `Reset` on a fresh machine, `Reset` succeeds, the
current state equals `s`, the history is empty, and a further
`Start s` succeeds. -/
theorem c8_round_trip (stt : StateTransitionTable) (s : State)
    (hk : (stt.lookup s).isSome = true) :
    ((((mkMachine stt).Start s).2.Stop).Reset).1 = none ∧
    ((((mkMachine stt).Start s).2.Stop).Reset).2.Current = s ∧
    ((((mkMachine stt).Start s).2.Stop).Reset).2.History = [] ∧
    (((((mkMachine stt).Start s).2.Stop).Reset).2.Start s).1 = none := by
  have hne : stt.isEmpty = false := isEmpty_false_of_lookup_isSome s stt hk
  have hstart : ((mkMachine stt).Start s).2 =
      { States := stt, curr := s, done := false, endevt := none, hist := [],
        initial := s, started := true } := by
    simp [Machine.Start, mkMachine, hne, isNone_eq_false_of_isSome hk]
  rw [hstart]
  refine ⟨rfl, rfl, rfl, ?_⟩
  simp [Machine.Stop, Machine.stop, Machine.Reset, Machine.Start, hne,
    isNone_eq_false_of_isSome hk]

/-- Witness for C8 at the table `sttA` and its declared state 1. -/
theorem c8_round_trip_witness :
    ((((mkMachine sttA).Start 1).2.Stop).Reset).1 = none ∧
    ((((mkMachine sttA).Start 1).2.Stop).Reset).2.Current = 1 ∧
    ((((mkMachine sttA).Start 1).2.Stop).Reset).2.History = [] ∧
    (((((mkMachine sttA).Start 1).2.Stop).Reset).2.Start 1).1 = none :=
  c8_round_trip sttA 1 rfl

/-- C9: `Stop` is idempotent — two successive calls yield exactly the
machine one call yields, terminal event included — and for a start
state that is a key of the (non-empty) table a subsequent `Start`
fails with `MachineStopped` carrying that terminal event, equally
after one `Stop` and after two. -/
theorem c9_stop_idempotent (m : Machine) (s : State)
    (hne : m.States.isEmpty = false) (hk : (m.States.lookup s).isSome = true) :
    m.Stop.Stop = m.Stop ∧
    (m.Stop.Start s).1 = some (.machineStopped m.Stop.endevt) ∧
    (m.Stop.Stop.Start s).1 = some (.machineStopped m.Stop.endevt) := by
  have hstop : m.Stop.Stop = m.Stop := by
    unfold Machine.Stop Machine.stop
    cases hl : m.hist.getLast? <;> simp [hl]
  have hdone : m.Stop.done = true := by
    unfold Machine.Stop Machine.stop
    split <;> rfl
  have hSt : m.Stop.States = m.States := by
    unfold Machine.Stop Machine.stop
    split <;> rfl
  have hlook : (m.Stop.States.lookup s).isSome = true := by rw [hSt]; exact hk
  have h2 : (m.Stop.Start s).1 = some (.machineStopped m.Stop.endevt) := by
    simp [Machine.Start, hSt, hne, isNone_eq_false_of_isSome hk, hdone]
  refine ⟨hstop, h2, ?_⟩
  rw [hstop]
  exact h2

/-- Witness for C9 at the machine `mA` and state 1. -/
theorem c9_stop_idempotent_witness :
    mA.Stop.Stop = mA.Stop ∧
    (mA.Stop.Start 1).1 = some (.machineStopped mA.Stop.endevt) ∧
    (mA.Stop.Stop.Start 1).1 = some (.machineStopped mA.Stop.endevt) :=
  c9_stop_idempotent mA 1 rfl rfl

/-- C10: when the inner map for state `s` binds event `e` to a nil
transition pointer, `GetTransition s e` finds nothing, a `Send e` from
current state `s` fails with `MissingTransition`, and yet
`GetEventsForState s` still lists `e`. -/
theorem c10_nil_transition_binding (stt : StateTransitionTable) (s : State) (e : Event)
    (em : EventMap) (m : Machine)
    (hs : stt.lookup s = some em) (he : em.lookup e = some none)
    (hm : m.States = stt) (hcurr : m.curr = s)
    (hstart : m.started = true) (hdone : m.done = false) :
    stt.GetTransition s e = none ∧
    (m.Send e).1 = some (.missingTransition s e) ∧
    e ∈ stt.GetEventsForState s := by
  have hget : stt.GetTransition s e = none := by
    simp [StateTransitionTable.GetTransition, hs, he]
  refine ⟨hget, ?_, ?_⟩
  · have hget2 : m.States.GetTransition s e = none := by
      rw [hm]; exact hget
    simp [Machine.Send, hstart, hdone, hcurr, hget2]
  · have hmem : e ∈ em.map Prod.fst :=
      mem_map_fst_of_lookup_isSome e em (by simp [he])
    simpa [StateTransitionTable.GetEventsForState, hs] using hmem

/-- Witness for C10 at the table `sttNil` and the machine `mNil`. -/
theorem c10_nil_transition_binding_witness :
    sttNil.GetTransition 1 7 = none ∧
    (mNil.Send 7).1 = some (.missingTransition 1 7) ∧
    7 ∈ sttNil.GetEventsForState 1 :=
  c10_nil_transition_binding sttNil 1 7 [(7, none)] mNil rfl rfl rfl rfl rfl rfl

end Cism
